import Mathlib

/-!
Shallow embedding of the Feed & Relationship Consistency Subsystem of the
social-media backend: the friend-request controller
(`src/controllers/friend.controller.js`), the post/comment controller
(`post.controller.js`), the feed controller (`feed.controller.js`) and the
user-deletion cascade (`user.controller.js`), over an explicit store that
models the four MongoDB collections (users, posts, comments, friend
requests).

Identifiers (Mongo `ObjectId`s) are modelled as `Nat`.  Mongoose calls are
modelled as follows: `findById` is `List.find?` on the id; `findByIdAndUpdate`
maps the updating function over the documents with the given id (a no-op when
the id is absent, as in Mongoose); `$addToSet` is add-if-absent at the end of
the list; `$pull` removes every occurrence; `deleteMany`/`findByIdAndDelete`
filter the collection; `sort({createdAt:-1})` is a sort by `createdAt`
descending (MongoDB does not promise a tie order, so any order-correct sort is
a faithful model); `skip`/`limit` are `List.drop`/`List.take`.
-/

namespace SocialMedia

/-- Status of a `FriendRequest` (`pending`/`accepted`/`rejected`). -/
inductive ReqStatus where
  | pending
  | accepted
  | rejected
deriving DecidableEq, Repr

/-- A `User` document (`user.model.js`), restricted to the fields the core
operations read or write: `_id`, `friends` and `posts`. -/
structure User where
  id : Nat
  friends : List Nat
  posts : List Nat
deriving DecidableEq, Repr

/-- A `Post` document (`post.model.js`): `_id`, `author`, `title`, `content`,
`likedBy`, `comments`, and the `createdAt` timestamp. -/
structure Post where
  id : Nat
  author : Nat
  title : String
  content : String
  likedBy : List Nat
  comments : List Nat
  createdAt : Nat
deriving DecidableEq, Repr

/-- A `Comment` document.  `comment.model.js` is not part of the sources;
the fields are the ones the controllers use (`author`, `post`, `content`,
`likedBy`, `createdAt`), matching the spec's data model for Comment. -/
structure Comment where
  id : Nat
  author : Nat
  post : Nat
  content : String
  likedBy : List Nat
  createdAt : Nat
deriving DecidableEq, Repr

/-- A `FriendRequest` document: `_id`, `sender`, `receiver`, `status`. -/
structure FriendRequest where
  id : Nat
  sender : Nat
  receiver : Nat
  status : ReqStatus
deriving DecidableEq, Repr

/-- The document database: one list per collection. -/
structure Store where
  users : List User
  posts : List Post
  comments : List Comment
  requests : List FriendRequest
deriving DecidableEq, Repr

/-- An error surfaced to the express error handler: either an `AppError`
with its message and HTTP status code, or a raw JavaScript runtime error
(which `errorHandler.js` turns into a 500 response). -/
inductive JsError where
  | appError (message : String) (statusCode : Nat)
  | referenceError (message : String)
deriving DecidableEq, Repr

/-- Outcome of a controller call, as observed by the client. -/
inductive Result (α : Type) where
  | ok (value : α)
  | err (error : JsError)
deriving DecidableEq, Repr

/-- `User.findById` -/
def Store.findUser (s : Store) (i : Nat) : Option User :=
  s.users.find? (fun u => u.id = i)

/-- `Post.findById` -/
def Store.findPost (s : Store) (i : Nat) : Option Post :=
  s.posts.find? (fun p => p.id = i)

/-- `Comment.findById` -/
def Store.findComment (s : Store) (i : Nat) : Option Comment :=
  s.comments.find? (fun c => c.id = i)

/-- `FriendRequest.findById` -/
def Store.findRequest (s : Store) (i : Nat) : Option FriendRequest :=
  s.requests.find? (fun r => r.id = i)

/-- Mongo `$addToSet`: append if absent. -/
def addToSet (x : Nat) (l : List Nat) : List Nat :=
  if x ∈ l then l else l ++ [x]

/-- Mongo `$pull` (and Mongoose array `.pull`): remove every occurrence. -/
def pull (x : Nat) (l : List Nat) : List Nat :=
  l.filter (fun y => y ≠ x)

/-- `User.findByIdAndUpdate(i, f)`: update the documents with id `i`
(no-op when the id is absent, as in Mongoose). -/
def updateUserById (s : Store) (i : Nat) (f : User → User) : Store :=
  { s with users := s.users.map (fun u => if u.id = i then f u else u) }

/-- `Post.findByIdAndUpdate(i, f)` / `post.save()` after mutating. -/
def updatePostById (s : Store) (i : Nat) (f : Post → Post) : Store :=
  { s with posts := s.posts.map (fun p => if p.id = i then f p else p) }

/-- `Comment.findByIdAndUpdate(i, f)` / `comment.save()` after mutating. -/
def updateCommentById (s : Store) (i : Nat) (f : Comment → Comment) : Store :=
  { s with comments := s.comments.map (fun c => if c.id = i then f c else c) }

/-- `FriendRequest.findByIdAndUpdate(i, f)`. -/
def updateRequestById (s : Store) (i : Nat) (f : FriendRequest → FriendRequest) : Store :=
  { s with requests := s.requests.map (fun r => if r.id = i then f r else r) }

/-- `parseInt(q, 10) || d`: the controllers replace a missing/zero numeric
query parameter by the default (`1` for `page`, `10` for `limit`). -/
def jsOr (n d : Nat) : Nat :=
  if n = 0 then d else n

/-- `Math.ceil(a / b)` on naturals (exact for `b > 0`). -/
def mathCeil (a b : Nat) : Nat :=
  (a + b - 1) / b

/-- One step of a sort by a `Nat` key, descending: insert `x` in front of the
first element whose key is `≤ key x`. -/
def insertDescBy {α : Type} (key : α → Nat) (x : α) : List α → List α
  | [] => [x]
  | y :: ys => if key y ≤ key x then x :: y :: ys else y :: insertDescBy key x ys

/-- Model of Mongo `sort({createdAt: -1})` (and `$sort`): sort by a `Nat`
key, descending.  MongoDB promises no tie order, so insertion sort is a
faithful model. -/
def sortDescBy {α : Type} (key : α → Nat) (l : List α) : List α :=
  l.foldr (insertDescBy key) []

/-!  Friend-request controller (`src/controllers/friend.controller.js`). -/

/-- `sendFriendRequest` (friend.controller.js, lines 39–66).  `receiver` is
the request-body field (`none` models a missing/falsy value); `newId` is the
`_id` the store assigns to the created document.  The `pending` initial
status is modelled from the spec: `friendRequest.model.js` is not among the
sources, and §4.1 states "On success creates a FriendRequest in `pending`
state". -/
def sendFriendRequest (userId : Nat) (receiver : Option Nat) (newId : Nat) (s : Store) :
    Result FriendRequest × Store :=
  match receiver with
  | none => (.err (.appError "Reciever not found" 404), s)
  | some rcv =>
    if rcv = userId then
      (.err (.appError "You cannot send a friend request to yourself" 400), s)
    else
      match s.findUser userId with
      | none =>
        -- `user.friends` on a `null` user throws a runtime TypeError
        (.err (.referenceError "Cannot read properties of null" ), s)
      | some user =>
        if rcv ∈ user.friends then
          (.err (.appError "You are already friends" 400), s)
        else
          let fr : FriendRequest :=
            { id := newId, sender := user.id, receiver := rcv, status := .pending }
          (.ok fr, { s with requests := s.requests ++ [fr] })

/-- `acceptFriendRequest` (friend.controller.js, lines 79–108):
`findByIdAndUpdate(id, {status:"accepted"})` — unconditional overwrite — then
`$addToSet` of each party into the other's `friends`. -/
def acceptFriendRequest (requestId : Nat) (s : Store) :
    Result FriendRequest × Store :=
  match s.findRequest requestId with
  | none => (.err (.appError "Friend request not found" 404), s)
  | some fr =>
    let fr2 := { fr with status := .accepted }
    let s1 := updateRequestById s requestId (fun _ => fr2)
    let s2 := updateUserById s1 fr2.sender
      (fun u => { u with friends := addToSet fr2.receiver u.friends })
    let s3 := updateUserById s2 fr2.receiver
      (fun u => { u with friends := addToSet fr2.sender u.friends })
    (.ok fr2, s3)

/-- `rejectFriendRequest` (friend.controller.js, lines 121–144):
`findByIdAndUpdate(id, {status:"rejected"})`, no friends mutation. -/
def rejectFriendRequest (requestId : Nat) (s : Store) :
    Result FriendRequest × Store :=
  match s.findRequest requestId with
  | none => (.err (.appError "Friend request not found" 404), s)
  | some fr =>
    let fr2 := { fr with status := .rejected }
    (.ok fr2, updateRequestById s requestId (fun _ => fr2))

/-!  Post/comment controller (`post.controller.js`, source `unnamed/part_000`). -/

/-- The paginated response envelope `{data, count, page, totalPages}`. -/
structure Page (α : Type) where
  data : List α
  count : Nat
  page : Nat
  totalPages : Nat
deriving DecidableEq, Repr

/-- `getAllPosts` (part_000, lines 19–47): the requester's own posts, newest
first, paginated. -/
def getAllPosts (userId page0 limit0 : Nat) (s : Store) : Page Post :=
  let page := jsOr page0 1
  let limit := jsOr limit0 10
  let skip := (page - 1) * limit
  let matching := s.posts.filter (fun p => p.author = userId)
  let posts := ((sortDescBy Post.createdAt matching).drop skip).take limit
  { data := posts, count := matching.length, page := page,
    totalPages := mathCeil matching.length limit }

/-- The update document for `PATCH /posts/:id` (optional `title`/`content`). -/
structure PostBody where
  title : Option String
  content : Option String
deriving DecidableEq, Repr

/-- Applying a `findByIdAndUpdate` body to a post. -/
def applyPostBody (b : PostBody) (p : Post) : Post :=
  { p with title := b.title.getD p.title, content := b.content.getD p.content }

/-- `updatePost` (part_000, lines 109–129): 404 when the post is missing,
401 when the requester is not the author, otherwise apply the body. -/
def updatePost (userId postId : Nat) (body : PostBody) (s : Store) :
    Result Post × Store :=
  match s.findPost postId with
  | none => (.err (.appError "Post not found" 404), s)
  | some post =>
    if post.author ≠ userId then
      (.err (.appError "You are not authorized to update this post" 401), s)
    else
      let post2 := applyPostBody body post
      (.ok post2, updatePostById s postId (fun _ => post2))

/-- `deletePost` (part_000, lines 142–163): 404 / 401 checks, then
`post.deleteOne()`, `$pull` from the author's `posts`, and
`Comment.deleteMany({post})`. -/
def deletePost (userId postId : Nat) (s : Store) : Result Post × Store :=
  match s.findPost postId with
  | none => (.err (.appError "Post not found" 404), s)
  | some post =>
    if post.author ≠ userId then
      (.err (.appError "You are not authorized to delete this post" 401), s)
    else
      let s1 := { s with posts := s.posts.filter (fun p => p.id ≠ postId) }
      let s2 := updateUserById s1 userId (fun u => { u with posts := pull post.id u.posts })
      let s3 := { s2 with comments := s2.comments.filter (fun c => c.post ≠ post.id) }
      (.ok post, s3)

/-- `toggleLikePost` (part_000, lines 176–202): pull the requester from
`likedBy` when present, push them when absent, and report which. -/
def toggleLikePost (userId postId : Nat) (s : Store) :
    Result (Post × String) × Store :=
  match s.findPost postId with
  | none => (.err (.appError "Post not found" 404), s)
  | some post =>
    let hasLiked := userId ∈ post.likedBy
    let post2 := { post with
      likedBy := if hasLiked then pull userId post.likedBy else post.likedBy ++ [userId] }
    (.ok (post2, if hasLiked then "Like removed" else "Like added"),
     updatePostById s postId (fun _ => post2))

/-- `deleteComment` (part_000, lines 271–292): 404 when the post or the
comment is missing, 401 when the requester is not the comment's author,
then `$pull` the comment id from its post and delete the comment. -/
def deleteComment (userId postId commentId : Nat) (s : Store) :
    Result Comment × Store :=
  match s.findPost postId, s.findComment commentId with
  | none, _ => (.err (.appError "Comment not found" 404), s)
  | some _, none => (.err (.appError "Comment not found" 404), s)
  | some _, some comment =>
    if comment.author ≠ userId then
      (.err (.appError "You are not authorized to update this comment" 401), s)
    else
      let s1 := updatePostById s comment.post
        (fun p => { p with comments := pull comment.id p.comments })
      let s2 := { s1 with comments := s1.comments.filter (fun c => c.id ≠ commentId) }
      (.ok comment, s2)

/-- The update document for `PATCH .../comment/:commentId`. -/
structure CommentBody where
  content : Option String
deriving DecidableEq, Repr

/-- `updateComment` (part_000, lines 307–331): 404 / 401 checks, then apply
the body. -/
def updateComment (userId commentId : Nat) (body : CommentBody) (s : Store) :
    Result Comment × Store :=
  match s.findComment commentId with
  | none => (.err (.appError "Comment not found" 404), s)
  | some comment =>
    if comment.author ≠ userId then
      (.err (.appError "You are not authorized to update this comment" 401), s)
    else
      let comment2 := { comment with content := body.content.getD comment.content }
      (.ok comment2, updateCommentById s commentId (fun _ => comment2))

/-- `toggleLikeComment` (part_000, lines 345–372): same toggle as for posts,
on the comment's `likedBy`. -/
def toggleLikeComment (userId commentId : Nat) (s : Store) :
    Result (Comment × String) × Store :=
  match s.findComment commentId with
  | none => (.err (.appError "Comment not found" 404), s)
  | some comment =>
    let hasLiked := userId ∈ comment.likedBy
    let comment2 := { comment with
      likedBy := if hasLiked then pull userId comment.likedBy else comment.likedBy ++ [userId] }
    (.ok (comment2, if hasLiked then "Like removed" else "Like added"),
     updateCommentById s commentId (fun _ => comment2))

/-!  Feed controller (`feed.controller.js`, source `unnamed/part_004`).

This module never imports `AppError`, so on the user-missing branches
`new AppError("User not found", 404)` throws
`ReferenceError: AppError is not defined`, which the `catch` forwards to the
error handler (no `statusCode` field, hence a 500 response). -/

/-- `getFeed` (part_004, lines 19–52): posts authored by the requester's
friends, newest first, paginated. -/
def getFeed (userId page0 limit0 : Nat) (s : Store) : Result (Page Post) :=
  let page := jsOr page0 1
  let limit := jsOr limit0 10
  let skip := (page - 1) * limit
  match s.findUser userId with
  | none => .err (.referenceError "AppError is not defined")
  | some user =>
    let matching := s.posts.filter (fun p => p.author ∈ user.friends)
    let posts := ((sortDescBy Post.createdAt matching).drop skip).take limit
    .ok { data := posts, count := matching.length, page := page,
          totalPages := mathCeil matching.length limit }

/-- A document of the friend-comment aggregation after its `$group` stage:
the post's scalar fields kept with `$first`, plus the `$push`-ed comments. -/
structure GroupedPost where
  id : Nat
  title : String
  content : String
  author : Nat
  createdAt : Nat
  comments : List Comment
deriving DecidableEq, Repr

/-- One step of the `$group` stage keyed on `_id`: a row whose post id
already has a group pushes its comment onto that group, otherwise it opens a
new group taking the post's scalar fields via `$first`. -/
def insertRow (acc : List GroupedPost) (pc : Post × Comment) : List GroupedPost :=
  if acc.any (fun g => g.id = pc.1.id) then
    acc.map (fun g => if g.id = pc.1.id then { g with comments := g.comments ++ [pc.2] } else g)
  else
    acc ++ [{ id := pc.1.id, title := pc.1.title, content := pc.1.content,
              author := pc.1.author, createdAt := pc.1.createdAt, comments := [pc.2] }]

/-- The `$group` stage over the unwound post-comment rows.  MongoDB leaves
the order of groups unspecified; first-appearance order is taken (the next
stage sorts by `createdAt` anyway). -/
def groupRows (rows : List (Post × Comment)) : List GroupedPost :=
  rows.foldl insertRow []

/-- Stages `$match`/`$lookup`/`$unwind`/`$match` shared by the result
pipeline and the count pipeline of `getFriendCommentFeed`: strangers' posts,
their comment documents looked up and unwound to one row per comment, kept
only when the comment's author is a friend. -/
def friendCommentRows (friends : List Nat) (s : Store) : List (Post × Comment) :=
  ((s.posts.filter (fun p => ¬ p.author ∈ friends)).flatMap
      (fun p => (s.comments.filter (fun c => c.id ∈ p.comments)).map (fun c => (p, c)))
    ).filter (fun pc => pc.2.author ∈ friends)

/-- `getFriendCommentFeed` (part_004, lines 69–188).  After the shared
stages: `$group` by post id, `$sort {createdAt:-1}`, `$skip`/`$limit`, then
the author `$lookup` + `$unwind` (which drops a document whose author has no
user record).  The count pipeline groups the same rows by id and counts the
groups. -/
def getFriendCommentFeed (userId page0 limit0 : Nat) (s : Store) :
    Result (Page GroupedPost) :=
  let page := jsOr page0 1
  let limit := jsOr limit0 10
  let skip := (page - 1) * limit
  match s.findUser userId with
  | none => .err (.referenceError "AppError is not defined")
  | some user =>
    let grouped := groupRows (friendCommentRows user.friends s)
    let sorted := sortDescBy GroupedPost.createdAt grouped
    let paged := (sorted.drop skip).take limit
    let withAuthor := paged.filter (fun g => s.users.any (fun u => u.id = g.author))
    let count := (groupRows (friendCommentRows user.friends s)).length
    .ok { data := withAuthor, count := count, page := page,
          totalPages := mathCeil count limit }

/-- `getFriendLikedPosts` (part_004, lines 205–241): posts whose `likedBy`
meets the requester's friends (`$in`) and whose author is not a friend
(`$nin`), newest first, paginated. -/
def getFriendLikedPosts (userId page0 limit0 : Nat) (s : Store) :
    Result (Page Post) :=
  let page := jsOr page0 1
  let limit := jsOr limit0 10
  let skip := (page - 1) * limit
  match s.findUser userId with
  | none => .err (.referenceError "AppError is not defined")
  | some user =>
    let matching := s.posts.filter
      (fun p => p.likedBy.any (fun x => x ∈ user.friends) ∧ ¬ p.author ∈ user.friends)
    let posts := ((sortDescBy Post.createdAt matching).drop skip).take limit
    .ok { data := posts, count := matching.length, page := page,
          totalPages := mathCeil matching.length limit }

/-!  User controller (`user.controller.js`, source `unnamed/part_005`). -/

/-- `deleteUser` (part_005, lines 101–131): 404 when the user is missing,
403 when the requester is not that user, then `findByIdAndDelete` followed
by the cascade: `Post.deleteMany({author})`,
`Post.updateMany({}, {$pull:{likedBy}})`,
`User.updateMany({}, {$pull:{friends}})`,
`FriendRequest.deleteMany({$or:[{sender},{receiver}]})`,
`Comment.deleteMany({author})`. -/
def deleteUser (userId targetId : Nat) (s : Store) : Result String × Store :=
  match s.findUser targetId with
  | none => (.err (.appError "User not found" 404), s)
  | some user =>
    if user.id ≠ userId then
      (.err (.appError "You are not authorized to delete this user" 403), s)
    else
      let s1 := { s with users := s.users.filter (fun u => u.id ≠ targetId) }
      let s2 := { s1 with posts := s1.posts.filter (fun p => p.author ≠ user.id) }
      let s3 := { s2 with posts := s2.posts.map (fun p : Post => { p with likedBy := pull user.id p.likedBy }) }
      let s4 := { s3 with users := s3.users.map (fun u : User => { u with friends := pull user.id u.friends }) }
      let s5 := { s4 with requests :=
        s4.requests.filter (fun r => ¬ (r.sender = user.id ∨ r.receiver = user.id)) }
      let s6 := { s5 with comments := s5.comments.filter (fun c => c.author ≠ user.id) }
      (.ok "User deleted successfully", s6)

/-!  Helper lemmas about the store primitives. -/

theorem mem_addToSet {x y : Nat} {l : List Nat} :
    y ∈ addToSet x l ↔ y = x ∨ y ∈ l := by
  unfold addToSet
  by_cases h : x ∈ l
  · simp only [h, if_true]
    constructor
    · exact Or.inr
    · rintro (rfl | hy)
      · exact h
      · exact hy
  · simp only [h, if_false, List.mem_append, List.mem_singleton]
    tauto

theorem addToSet_of_mem {x : Nat} {l : List Nat} (h : x ∈ l) : addToSet x l = l := by
  simp [addToSet, h]

theorem addToSet_of_not_mem {x : Nat} {l : List Nat} (h : x ∉ l) :
    addToSet x l = l ++ [x] := by
  simp [addToSet, h]

theorem self_mem_addToSet {x : Nat} {l : List Nat} : x ∈ addToSet x l :=
  mem_addToSet.mpr (Or.inl rfl)

theorem mem_pull {x y : Nat} {l : List Nat} :
    y ∈ pull x l ↔ y ∈ l ∧ y ≠ x := by
  simp [pull, List.mem_filter]

theorem pull_of_not_mem {x : Nat} {l : List Nat} (h : x ∉ l) : pull x l = l := by
  apply List.filter_eq_self.mpr
  intro y hy
  simp only [ne_eq, decide_eq_true_eq]
  exact fun hyx => h (hyx ▸ hy)

/-- `find?` on an id commutes with mapping an id-preserving function. -/
theorem find?_id_map {α : Type} (idf : α → Nat) (g : α → α)
    (hg : ∀ x, idf (g x) = idf x) (l : List α) (i : Nat) :
    (l.map g).find? (fun x => idf x = i) = (l.find? (fun x => idf x = i)).map g := by
  rw [List.find?_map]
  have hfun : ((fun x => decide (idf x = i)) ∘ g) = (fun x => decide (idf x = i)) := by
    funext x
    simp [Function.comp, hg]
  rw [hfun]

theorem find?_id_some {α : Type} {idf : α → Nat} {l : List α} {i : Nat} {x : α}
    (h : l.find? (fun y => idf y = i) = some x) : idf x = i := by
  have := List.find?_some h
  simpa using this

/-!  Lemmas about the descending sort. -/

theorem insertDescBy_perm {α : Type} (key : α → Nat) (x : α) (l : List α) :
    (insertDescBy key x l).Perm (x :: l) := by
  induction l with
  | nil => simp [insertDescBy]
  | cons y ys ih =>
    unfold insertDescBy
    by_cases h : key y ≤ key x
    · simp [h]
    · simp only [h, if_false]
      exact (ih.cons y).trans (List.Perm.swap x y ys)

theorem sortDescBy_perm {α : Type} (key : α → Nat) (l : List α) :
    (sortDescBy key l).Perm l := by
  induction l with
  | nil => simp [sortDescBy]
  | cons y ys ih =>
    have h1 : sortDescBy key (y :: ys) = insertDescBy key y (sortDescBy key ys) := rfl
    rw [h1]
    exact (insertDescBy_perm key y (sortDescBy key ys)).trans (ih.cons y)

theorem mem_sortDescBy {α : Type} {key : α → Nat} {l : List α} {a : α} :
    a ∈ sortDescBy key l ↔ a ∈ l :=
  (sortDescBy_perm key l).mem_iff

theorem length_sortDescBy {α : Type} (key : α → Nat) (l : List α) :
    (sortDescBy key l).length = l.length :=
  (sortDescBy_perm key l).length_eq

theorem sorted_insertDescBy {α : Type} {key : α → Nat} {l : List α} (x : α)
    (h : l.Pairwise (fun a b => key b ≤ key a)) :
    (insertDescBy key x l).Pairwise (fun a b => key b ≤ key a) := by
  induction l with
  | nil => simp [insertDescBy]
  | cons y ys ih =>
    rcases List.pairwise_cons.mp h with ⟨hy, hys⟩
    unfold insertDescBy
    by_cases hle : key y ≤ key x
    · simp only [hle, if_true]
      refine List.pairwise_cons.mpr ⟨?_, h⟩
      intro z hz
      rcases List.mem_cons.mp hz with hz | hz
      · exact hz ▸ hle
      · exact le_trans (hy z hz) hle
    · simp only [hle, if_false]
      refine List.pairwise_cons.mpr ⟨?_, ih hys⟩
      intro z hz
      rcases List.mem_cons.mp ((insertDescBy_perm key x ys).mem_iff.mp hz) with hz' | hz'
      · exact hz' ▸ le_of_lt (lt_of_not_le hle)
      · exact hy z hz'

theorem sorted_sortDescBy {α : Type} (key : α → Nat) (l : List α) :
    (sortDescBy key l).Pairwise (fun a b => key b ≤ key a) := by
  induction l with
  | nil => simp [sortDescBy]
  | cons y ys ih => exact sorted_insertDescBy y ih

/-!  Lemmas about `mathCeil`: it is the ceiling of `a / b`. -/

theorem le_mathCeil_mul (a b : Nat) (hb : 1 ≤ b) : a ≤ mathCeil a b * b := by
  unfold mathCeil
  rcases Nat.eq_zero_or_pos a with ha | ha
  · simp [ha]
  · have hab : a + b - 1 = (a - 1) + b := by omega
    rw [hab, Nat.add_div_right _ hb]
    have h1 := Nat.div_add_mod (a - 1) b
    have h2 := Nat.mod_lt (a - 1) hb
    rw [Nat.add_mul, one_mul, Nat.mul_comm]
    generalize hm : b * ((a - 1) / b) = m at h1 ⊢
    omega

theorem mathCeil_le {a b : Nat} (m : Nat) (hb : 1 ≤ b) (h : a ≤ m * b) :
    mathCeil a b ≤ m := by
  unfold mathCeil
  rw [← Nat.lt_succ_iff, Nat.div_lt_iff_lt_mul hb]
  have : (m + 1) * b = m * b + b := by ring
  rw [this]
  generalize m * b = k at h ⊢
  omega

/-!  `findById` after an id-preserving collection update. -/

theorem findUser_users_map (s : Store) (g : User → User)
    (hg : ∀ u, (g u).id = u.id) (i : Nat) :
    Store.findUser { s with users := s.users.map g } i = (s.findUser i).map g := by
  unfold Store.findUser
  exact find?_id_map User.id g hg s.users i

theorem findPost_posts_map (s : Store) (g : Post → Post)
    (hg : ∀ p, (g p).id = p.id) (i : Nat) :
    Store.findPost { s with posts := s.posts.map g } i = (s.findPost i).map g := by
  unfold Store.findPost
  exact find?_id_map Post.id g hg s.posts i

theorem findComment_comments_map (s : Store) (g : Comment → Comment)
    (hg : ∀ c, (g c).id = c.id) (i : Nat) :
    Store.findComment { s with comments := s.comments.map g } i = (s.findComment i).map g := by
  unfold Store.findComment
  exact find?_id_map Comment.id g hg s.comments i

theorem findRequest_requests_map (s : Store) (g : FriendRequest → FriendRequest)
    (hg : ∀ r, (g r).id = r.id) (i : Nat) :
    Store.findRequest { s with requests := s.requests.map g } i = (s.findRequest i).map g := by
  unfold Store.findRequest
  exact find?_id_map FriendRequest.id g hg s.requests i

/-!  The `$group` stage of the friend-comment pipeline, computed in closed
form: over rows generated post-by-post (with distinct post ids), grouping
recovers one document per post that contributed at least one row. -/

/-- The friend-authored comments the friend-comment pipeline attaches to a
post: the comment documents of the post's `comments` id-list whose author is
one of the requester's friends. -/
def friendComments (friends : List Nat) (s : Store) (p : Post) : List Comment :=
  (s.comments.filter (fun c => c.id ∈ p.comments)).filter (fun c => c.author ∈ friends)

/-- The grouped document the pipeline produces for a post. -/
def toGrouped (friends : List Nat) (s : Store) (p : Post) : GroupedPost :=
  { id := p.id, title := p.title, content := p.content, author := p.author,
    createdAt := p.createdAt, comments := friendComments friends s p }

theorem friendCommentRows_eq (friends : List Nat) (s : Store) :
    friendCommentRows friends s =
      (s.posts.filter (fun p => ¬ p.author ∈ friends)).flatMap
        (fun p => (friendComments friends s p).map (fun c => (p, c))) := by
  unfold friendCommentRows friendComments
  rw [List.filter_flatMap]
  congr 1
  funext p
  rw [List.filter_map]
  congr 1

theorem insertRow_found (acc : List GroupedPost) (pc : Post × Comment)
    (h : acc.any (fun g => g.id = pc.1.id) = true) :
    insertRow acc pc =
      acc.map (fun g => if g.id = pc.1.id
        then { g with comments := g.comments ++ [pc.2] } else g) := by
  rw [insertRow, if_pos h]

theorem insertRow_new (acc : List GroupedPost) (pc : Post × Comment)
    (h : acc.any (fun g => g.id = pc.1.id) = false) :
    insertRow acc pc =
      acc ++ [{ id := pc.1.id, title := pc.1.title, content := pc.1.content,
                author := pc.1.author, createdAt := pc.1.createdAt,
                comments := [pc.2] }] := by
  rw [insertRow, if_neg]
  simp [h]

theorem foldl_insertRow_run (p : Post) (cs : List Comment) :
    ∀ (acc : List GroupedPost) (done : List Comment),
      (∀ g' ∈ acc, g'.id ≠ p.id) →
      List.foldl insertRow
          (acc ++ [⟨p.id, p.title, p.content, p.author, p.createdAt, done⟩])
          (cs.map (fun c => (p, c))) =
        acc ++ [⟨p.id, p.title, p.content, p.author, p.createdAt, done ++ cs⟩] := by
  induction cs with
  | nil =>
    intro acc done _
    simp
  | cons c cs ih =>
    intro acc done hacc
    rw [List.map_cons, List.foldl_cons]
    have hany : ((acc ++ [(⟨p.id, p.title, p.content, p.author, p.createdAt, done⟩ :
        GroupedPost)]).any (fun g => g.id = ((p, c)).1.id)) = true := by
      rw [List.any_eq_true]
      exact ⟨⟨p.id, p.title, p.content, p.author, p.createdAt, done⟩,
        List.mem_append_right _ (by simp), by simp⟩
    rw [insertRow_found _ _ hany, List.map_append]
    have h1 : acc.map (fun g => if g.id = ((p, c)).1.id
        then { g with comments := g.comments ++ [((p, c)).2] } else g) = acc := by
      refine (List.map_congr_left ?_).trans (List.map_id acc)
      intro a ha
      exact if_neg (by simpa using hacc a ha)
    have h2 : ([(⟨p.id, p.title, p.content, p.author, p.createdAt, done⟩ : GroupedPost)]).map
        (fun g => if g.id = ((p, c)).1.id
          then { g with comments := g.comments ++ [((p, c)).2] } else g) =
        [⟨p.id, p.title, p.content, p.author, p.createdAt, done ++ [c]⟩] := by
      simp
    rw [h1, h2, ih acc (done ++ [c]) hacc]
    simp

theorem foldl_insertRow_flatMap (F : Post → List Comment) (cand : List Post) :
    ∀ (acc : List GroupedPost),
      (cand.map Post.id).Nodup →
      (∀ g ∈ acc, ∀ p ∈ cand, g.id ≠ p.id) →
      List.foldl insertRow acc (cand.flatMap (fun p => (F p).map (fun c => (p, c)))) =
        acc ++ (cand.filter (fun p => ¬ F p = [])).map
          (fun p => { id := p.id, title := p.title, content := p.content,
                      author := p.author, createdAt := p.createdAt, comments := F p }) := by
  induction cand with
  | nil =>
    intro acc _ _
    simp
  | cons p rest ih =>
    intro acc hnd hacc
    rw [List.map_cons] at hnd
    have hpid : p.id ∉ rest.map Post.id := (List.nodup_cons.mp hnd).1
    have hndrest : (rest.map Post.id).Nodup := (List.nodup_cons.mp hnd).2
    rw [List.flatMap_cons, List.foldl_append]
    by_cases hF : F p = []
    · rw [hF]
      simp only [List.map_nil, List.foldl_nil]
      rw [ih acc hndrest (fun g hg q hq => hacc g hg q (List.mem_cons_of_mem p hq))]
      rw [List.filter_cons, if_neg (by simpa using hF)]
    · rcases List.exists_cons_of_ne_nil hF with ⟨c, cs, hcs⟩
      rw [hcs, List.map_cons, List.foldl_cons]
      have hnone : (acc.any (fun g => g.id = ((p, c)).1.id)) = false := by
        rw [List.any_eq_false]
        intro g hg
        simpa using hacc g hg p (List.mem_cons_self p rest)
      rw [insertRow_new _ _ hnone]
      have hrun := foldl_insertRow_run p cs acc [c]
        (fun g hg => hacc g hg p (List.mem_cons_self p rest))
      dsimp only at hrun ⊢
      rw [hrun]
      have hFc : ([c] ++ cs : List Comment) = F p := by
        rw [hcs]
        rfl
      rw [hFc]
      have hacc2 : ∀ g ∈ acc ++ [(⟨p.id, p.title, p.content, p.author, p.createdAt, F p⟩ :
          GroupedPost)], ∀ q ∈ rest, g.id ≠ q.id := by
        intro g hg q hq
        rcases List.mem_append.mp hg with hg' | hg'
        · exact hacc g hg' q (List.mem_cons_of_mem p hq)
        · rcases List.mem_singleton.mp hg' with rfl
          intro hqe
          exact hpid (by
            dsimp only at hqe
            rw [hqe]
            exact List.mem_map_of_mem Post.id hq)
      rw [ih _ hndrest hacc2]
      rw [List.filter_cons, if_pos (by simpa using hF), List.map_cons]
      simp

theorem groupRows_flatMap (F : Post → List Comment) (cand : List Post)
    (hnd : (cand.map Post.id).Nodup) :
    groupRows (cand.flatMap (fun p => (F p).map (fun c => (p, c)))) =
      (cand.filter (fun p => ¬ F p = [])).map
        (fun p => { id := p.id, title := p.title, content := p.content,
                    author := p.author, createdAt := p.createdAt, comments := F p }) := by
  unfold groupRows
  simpa using foldl_insertRow_flatMap F cand [] hnd (by simp)

theorem findUser_some_id {s : Store} {i : Nat} {u : User}
    (h : s.findUser i = some u) : u.id = i :=
  find?_id_some h

theorem findPost_some_id {s : Store} {i : Nat} {p : Post}
    (h : s.findPost i = some p) : p.id = i :=
  find?_id_some h

theorem findComment_some_id {s : Store} {i : Nat} {c : Comment}
    (h : s.findComment i = some c) : c.id = i :=
  find?_id_some h

theorem findRequest_some_id {s : Store} {i : Nat} {r : FriendRequest}
    (h : s.findRequest i = some r) : r.id = i :=
  find?_id_some h

/-!  Claim theorems. -/

/-- A store whose only friend request is already in the terminal state
`rejected`, between users 1 and 2 who are not friends. -/
def terminalStore : Store :=
  { users := [⟨1, [], []⟩, ⟨2, [], []⟩], posts := [], comments := [],
    requests := [⟨10, 1, 2, .rejected⟩] }

/-- C1: counterexample.  The claim says no transition leaves a terminal
state, but `acceptFriendRequest` applied to a request whose status is the
terminal `rejected` changes its status to `accepted` and grants the
friendship (1 and 2 end up in each other's friends sets). -/
theorem no_terminal_transition_counterexample :
    terminalStore.findRequest 10 = some ⟨10, 1, 2, .rejected⟩ ∧
    ((acceptFriendRequest 10 terminalStore).2.findRequest 10).map FriendRequest.status
      = some .accepted ∧
    (acceptFriendRequest 10 terminalStore).2.findUser 1 = some ⟨1, [2], []⟩ ∧
    (acceptFriendRequest 10 terminalStore).2.findUser 2 = some ⟨2, [1], []⟩ := by
  decide

/-- C1 (amended): the request controller guards no transition at all —
`acceptFriendRequest` sets the status of any existing request to `accepted`
and `rejectFriendRequest` sets it to `rejected`, whatever the current
status (in particular, out of the terminal states; acceptance also grants
friendship, see the counterexample and C2's theorem). -/
theorem status_overwritten_unconditionally (s : Store) (rid : Nat) (fr : FriendRequest)
    (h : s.findRequest rid = some fr) :
    (acceptFriendRequest rid s).1 = .ok { fr with status := .accepted } ∧
    (acceptFriendRequest rid s).2.findRequest rid = some { fr with status := .accepted } ∧
    (rejectFriendRequest rid s).1 = .ok { fr with status := .rejected } ∧
    (rejectFriendRequest rid s).2.findRequest rid = some { fr with status := .rejected } := by
  have hid : fr.id = rid := findRequest_some_id h
  have hgr : ∀ st : ReqStatus, ∀ r : FriendRequest,
      ((fun r => if r.id = rid then { fr with status := st } else r) r).id = r.id := by
    intro st r
    by_cases hr : r.id = rid
    · simp [hr, hid]
    · simp [hr]
  have h' : s.requests.find? (fun r => r.id = rid) = some fr := h
  refine ⟨?_, ?_, ?_, ?_⟩
  · simp [acceptFriendRequest, h]
  · have hreq : (acceptFriendRequest rid s).2.requests =
        s.requests.map (fun r => if r.id = rid then { fr with status := .accepted } else r) := by
      simp [acceptFriendRequest, h, updateRequestById, updateUserById]
    show (acceptFriendRequest rid s).2.requests.find? (fun r => r.id = rid) = _
    rw [hreq, find?_id_map FriendRequest.id _ (hgr .accepted), h']
    simp [hid]
  · simp [rejectFriendRequest, h]
  · have hreq : (rejectFriendRequest rid s).2.requests =
        s.requests.map (fun r => if r.id = rid then { fr with status := .rejected } else r) := by
      simp [rejectFriendRequest, h, updateRequestById]
    show (rejectFriendRequest rid s).2.requests.find? (fun r => r.id = rid) = _
    rw [hreq, find?_id_map FriendRequest.id _ (hgr .rejected), h']
    simp [hid]

/-- C1 amended-claim witness at a concrete terminal-state request. -/
theorem status_overwritten_unconditionally_witness :
    terminalStore.findRequest 10 = some ⟨10, 1, 2, .rejected⟩ ∧
    ((acceptFriendRequest 10 terminalStore).1 = .ok ⟨10, 1, 2, .accepted⟩ ∧
     (acceptFriendRequest 10 terminalStore).2.findRequest 10 = some ⟨10, 1, 2, .accepted⟩ ∧
     (rejectFriendRequest 10 terminalStore).1 = .ok ⟨10, 1, 2, .rejected⟩ ∧
     (rejectFriendRequest 10 terminalStore).2.findRequest 10 = some ⟨10, 1, 2, .rejected⟩) :=
  ⟨by decide,
   status_overwritten_unconditionally terminalStore 10 ⟨10, 1, 2, .rejected⟩ (by decide)⟩

/-- C2: `acceptFriendRequest` on an existing request returns the request
with status `accepted` and stores it so; when both parties exist, each is
added to the other's friends set with add-if-absent semantics (the set is
unchanged when the other party is already present, and gets exactly one
new element otherwise), so that afterwards the two memberships hold — in
particular A ∈ B.friends ⇔ B ∈ A.friends; when no request with the given
id exists it fails with the 404 `NotFound` error and the store is
unchanged. -/
theorem accept_request_spec (s : Store) (rid : Nat) :
    (s.findRequest rid = none →
      acceptFriendRequest rid s = (.err (.appError "Friend request not found" 404), s)) ∧
    ∀ fr, s.findRequest rid = some fr →
      (acceptFriendRequest rid s).1 = .ok { fr with status := .accepted } ∧
      (acceptFriendRequest rid s).2.findRequest rid = some { fr with status := .accepted } ∧
      ∀ uA uB, s.findUser fr.sender = some uA → s.findUser fr.receiver = some uB →
        ∃ uA' uB',
          (acceptFriendRequest rid s).2.findUser fr.sender = some uA' ∧
          (acceptFriendRequest rid s).2.findUser fr.receiver = some uB' ∧
          (fr.receiver ∈ uA.friends → uA'.friends = uA.friends) ∧
          (fr.receiver ∉ uA.friends → uA'.friends = uA.friends ++ [fr.receiver]) ∧
          (fr.sender ∈ uB.friends → uB'.friends = uB.friends) ∧
          (fr.sender ∉ uB.friends → uB'.friends = uB.friends ++ [fr.sender]) ∧
          fr.receiver ∈ uA'.friends ∧ fr.sender ∈ uB'.friends ∧
          (fr.receiver ∈ uA'.friends ↔ fr.sender ∈ uB'.friends) := by
  constructor
  · intro h
    simp [acceptFriendRequest, h]
  · intro fr h
    have hid : fr.id = rid := findRequest_some_id h
    have h' : s.requests.find? (fun r => r.id = rid) = some fr := h
    have hgr : ∀ r : FriendRequest,
        ((fun r => if r.id = rid then { fr with status := ReqStatus.accepted } else r) r).id
          = r.id := by
      intro r
      by_cases hr : r.id = rid
      · simp [hr, hid]
      · simp [hr]
    have hg1 : ∀ u : User,
        ((fun u => if u.id = fr.sender
          then { u with friends := addToSet fr.receiver u.friends } else u) u).id = u.id := by
      intro u
      by_cases hu : u.id = fr.sender <;> simp [hu]
    have hg2 : ∀ u : User,
        ((fun u => if u.id = fr.receiver
          then { u with friends := addToSet fr.sender u.friends } else u) u).id = u.id := by
      intro u
      by_cases hu : u.id = fr.receiver <;> simp [hu]
    refine ⟨by simp [acceptFriendRequest, h], ?_, ?_⟩
    · have hreq : (acceptFriendRequest rid s).2.requests =
          s.requests.map
            (fun r => if r.id = rid then { fr with status := ReqStatus.accepted } else r) := by
        simp [acceptFriendRequest, h, updateRequestById, updateUserById]
      show (acceptFriendRequest rid s).2.requests.find? (fun r => r.id = rid) = _
      rw [hreq, find?_id_map FriendRequest.id _ hgr, h']
      simp [hid]
    · intro uA uB hA hB
      have hAid : uA.id = fr.sender := findUser_some_id hA
      have hBid : uB.id = fr.receiver := findUser_some_id hB
      have hA' : s.users.find? (fun u => u.id = fr.sender) = some uA := hA
      have hB' : s.users.find? (fun u => u.id = fr.receiver) = some uB := hB
      have husers : (acceptFriendRequest rid s).2.users =
          (s.users.map (fun u => if u.id = fr.sender
              then { u with friends := addToSet fr.receiver u.friends } else u)).map
            (fun u => if u.id = fr.receiver
              then { u with friends := addToSet fr.sender u.friends } else u) := by
        simp [acceptFriendRequest, h, updateRequestById, updateUserById]
      by_cases hsr : fr.sender = fr.receiver
      · -- degenerate case: the request names the same id on both sides
        have hAB : uA = uB := by
          rw [hsr] at hA'
          rw [hA'] at hB'
          exact Option.some.inj hB'
        have hfindA : (acceptFriendRequest rid s).2.findUser fr.sender =
            some { uA with
              friends := addToSet fr.receiver (addToSet fr.receiver uA.friends) } := by
          show (acceptFriendRequest rid s).2.users.find? (fun u => u.id = fr.sender) = _
          rw [husers, find?_id_map User.id _ hg2, find?_id_map User.id _ hg1, hA']
          simp [hAid, hsr]
        have hfindB : (acceptFriendRequest rid s).2.findUser fr.receiver =
            some { uA with
              friends := addToSet fr.receiver (addToSet fr.receiver uA.friends) } := by
          have hcopy := hfindA
          rw [hsr] at hcopy
          exact hcopy
        refine ⟨_, _, hfindA, hfindB, ?_, ?_, ?_, ?_, ?_, ?_, by rw [hsr]⟩
        · intro hmem
          show addToSet fr.receiver (addToSet fr.receiver uA.friends) = uA.friends
          rw [addToSet_of_mem hmem, addToSet_of_mem hmem]
        · intro hmem
          show addToSet fr.receiver (addToSet fr.receiver uA.friends)
            = uA.friends ++ [fr.receiver]
          rw [addToSet_of_not_mem hmem, addToSet_of_mem (by simp)]
        · intro hmem
          have hmem' : fr.receiver ∈ uA.friends := by
            rw [← hsr, hAB]
            exact hmem
          show addToSet fr.receiver (addToSet fr.receiver uA.friends) = uB.friends
          rw [addToSet_of_mem hmem', addToSet_of_mem hmem', hAB]
        · intro hmem
          have hmem' : fr.receiver ∉ uA.friends := by
            rw [← hsr, hAB]
            exact hmem
          show addToSet fr.receiver (addToSet fr.receiver uA.friends)
            = uB.friends ++ [fr.sender]
          rw [addToSet_of_not_mem hmem', addToSet_of_mem (by simp), hAB, ← hsr]
        · show fr.receiver ∈ addToSet fr.receiver (addToSet fr.receiver uA.friends)
          exact self_mem_addToSet
        · show fr.sender ∈ addToSet fr.receiver (addToSet fr.receiver uA.friends)
          rw [hsr]
          exact self_mem_addToSet
      · -- distinct sender and receiver: each side is updated exactly once
        have hfindA : (acceptFriendRequest rid s).2.findUser fr.sender =
            some { uA with friends := addToSet fr.receiver uA.friends } := by
          show (acceptFriendRequest rid s).2.users.find? (fun u => u.id = fr.sender) = _
          rw [husers, find?_id_map User.id _ hg2, find?_id_map User.id _ hg1, hA']
          simp [hAid, hsr]
        have hfindB : (acceptFriendRequest rid s).2.findUser fr.receiver =
            some { uB with friends := addToSet fr.sender uB.friends } := by
          show (acceptFriendRequest rid s).2.users.find? (fun u => u.id = fr.receiver) = _
          rw [husers, find?_id_map User.id _ hg2, find?_id_map User.id _ hg1, hB']
          simp [hBid, Ne.symm hsr]
        refine ⟨_, _, hfindA, hfindB, ?_, ?_, ?_, ?_, ?_, ?_, ?_⟩
        · intro hmem
          simp only
          exact addToSet_of_mem hmem
        · intro hmem
          simp only
          exact addToSet_of_not_mem hmem
        · intro hmem
          simp only
          exact addToSet_of_mem hmem
        · intro hmem
          simp only
          exact addToSet_of_not_mem hmem
        · exact self_mem_addToSet
        · exact self_mem_addToSet
        · exact iff_of_true self_mem_addToSet self_mem_addToSet

/-- A store with a pending request 20 from user 1 to user 2, not yet
friends. -/
def pendingStore : Store :=
  { users := [⟨1, [], []⟩, ⟨2, [], []⟩], posts := [], comments := [],
    requests := [⟨20, 1, 2, .pending⟩] }

/-- C2 witness: accepting the concrete pending request 1 → 2. -/
theorem accept_request_spec_witness :
    (pendingStore.findRequest 20 = some ⟨20, 1, 2, .pending⟩ ∧
     pendingStore.findUser 1 = some ⟨1, [], []⟩ ∧
     pendingStore.findUser 2 = some ⟨2, [], []⟩) ∧
    ∃ uA' uB',
      (acceptFriendRequest 20 pendingStore).2.findUser 1 = some uA' ∧
      (acceptFriendRequest 20 pendingStore).2.findUser 2 = some uB' ∧
      (2 ∈ ([] : List Nat) → uA'.friends = []) ∧
      (2 ∉ ([] : List Nat) → uA'.friends = [] ++ [2]) ∧
      (1 ∈ ([] : List Nat) → uB'.friends = []) ∧
      (1 ∉ ([] : List Nat) → uB'.friends = [] ++ [1]) ∧
      2 ∈ uA'.friends ∧ 1 ∈ uB'.friends ∧ (2 ∈ uA'.friends ↔ 1 ∈ uB'.friends) :=
  ⟨by decide,
   ((accept_request_spec pendingStore 20).2 ⟨20, 1, 2, .pending⟩ (by decide)).2.2
     ⟨1, [], []⟩ ⟨2, [], []⟩ (by decide) (by decide)⟩

/-- Toggling twice at the list level: membership returns to the original
liked-by set. -/
theorem toggle_twice_mem (l : List Nat) (u x : Nat) (hmem : u ∈ l) :
    x ∈ pull u l ++ [u] ↔ x ∈ l := by
  by_cases hx : x = u <;> simp [hx, hmem, mem_pull]

/-- C3: the like toggle is an involution on the liked-by set (two calls by
the same actor restore its members), and every single call acts: it removes
the actor and reports "Like removed" when the actor had liked, and appends
the actor and reports "Like added" otherwise — for posts and for comments
alike. -/
theorem toggle_like_involution (s : Store) (pid cid u : Nat) :
    (∀ p, s.findPost pid = some p →
      (u ∈ p.likedBy →
        (toggleLikePost u pid s).1 = .ok ({ p with likedBy := pull u p.likedBy }, "Like removed")) ∧
      (u ∉ p.likedBy →
        (toggleLikePost u pid s).1 = .ok ({ p with likedBy := p.likedBy ++ [u] }, "Like added")) ∧
      ∃ p2, (toggleLikePost u pid (toggleLikePost u pid s).2).2.findPost pid = some p2 ∧
        ∀ x, x ∈ p2.likedBy ↔ x ∈ p.likedBy) ∧
    (∀ c, s.findComment cid = some c →
      (u ∈ c.likedBy →
        (toggleLikeComment u cid s).1 = .ok ({ c with likedBy := pull u c.likedBy }, "Like removed")) ∧
      (u ∉ c.likedBy →
        (toggleLikeComment u cid s).1 = .ok ({ c with likedBy := c.likedBy ++ [u] }, "Like added")) ∧
      ∃ c2, (toggleLikeComment u cid (toggleLikeComment u cid s).2).2.findComment cid = some c2 ∧
        ∀ x, x ∈ c2.likedBy ↔ x ∈ c.likedBy) := by
  constructor
  · intro p hp
    have hpid : p.id = pid := findPost_some_id hp
    have hp' : s.posts.find? (fun q => q.id = pid) = some p := hp
    refine ⟨fun hmem => by simp [toggleLikePost, hp, hmem],
            fun hmem => by simp [toggleLikePost, hp, hmem], ?_⟩
    by_cases hmem : u ∈ p.likedBy
    · have hg : ∀ q : Post,
          ((fun q => if q.id = pid then { p with likedBy := pull u p.likedBy } else q) q).id
            = q.id := by
        intro q
        by_cases hq : q.id = pid <;> simp [hq, hpid]
      have h1 : (toggleLikePost u pid s).2.posts =
          s.posts.map (fun q => if q.id = pid then { p with likedBy := pull u p.likedBy } else q) := by
        simp [toggleLikePost, hp, hmem, updatePostById]
      have hfind1 : (toggleLikePost u pid s).2.findPost pid =
          some { p with likedBy := pull u p.likedBy } := by
        show (toggleLikePost u pid s).2.posts.find? (fun q => q.id = pid) = _
        rw [h1, find?_id_map Post.id _ hg, hp']
        simp [hpid]
      have hmem1 : u ∉ ({ p with likedBy := pull u p.likedBy } : Post).likedBy := by
        simp [mem_pull]
      obtain ⟨s1, hs1⟩ : ∃ t, (toggleLikePost u pid s).2 = t := ⟨_, rfl⟩
      rw [hs1] at hfind1 ⊢
      have hg2 : ∀ q : Post,
          ((fun q => if q.id = pid then { p with likedBy := pull u p.likedBy ++ [u] } else q) q).id
            = q.id := by
        intro q
        by_cases hq : q.id = pid <;> simp [hq, hpid]
      have h2 : (toggleLikePost u pid s1).2.posts =
          s1.posts.map
            (fun q => if q.id = pid then { p with likedBy := pull u p.likedBy ++ [u] } else q) := by
        simp [toggleLikePost, hfind1, hmem1, updatePostById]
      refine ⟨{ p with likedBy := pull u p.likedBy ++ [u] }, ?_, ?_⟩
      · show (toggleLikePost u pid s1).2.posts.find? (fun q => q.id = pid) = _
        rw [h2, find?_id_map Post.id _ hg2]
        have hf : s1.posts.find? (fun q => q.id = pid) =
            some { p with likedBy := pull u p.likedBy } := hfind1
        rw [hf]
        simp [hpid]
      · intro x
        exact toggle_twice_mem p.likedBy u x hmem
    · have hg : ∀ q : Post,
          ((fun q => if q.id = pid then { p with likedBy := p.likedBy ++ [u] } else q) q).id
            = q.id := by
        intro q
        by_cases hq : q.id = pid <;> simp [hq, hpid]
      have h1 : (toggleLikePost u pid s).2.posts =
          s.posts.map (fun q => if q.id = pid then { p with likedBy := p.likedBy ++ [u] } else q) := by
        simp [toggleLikePost, hp, hmem, updatePostById]
      have hfind1 : (toggleLikePost u pid s).2.findPost pid =
          some { p with likedBy := p.likedBy ++ [u] } := by
        show (toggleLikePost u pid s).2.posts.find? (fun q => q.id = pid) = _
        rw [h1, find?_id_map Post.id _ hg, hp']
        simp [hpid]
      have hmem1 : u ∈ ({ p with likedBy := p.likedBy ++ [u] } : Post).likedBy := by
        simp
      have hpull : pull u (p.likedBy ++ [u]) = p.likedBy := by
        unfold pull
        rw [List.filter_append]
        have hl : p.likedBy.filter (fun y => y ≠ u) = p.likedBy := pull_of_not_mem hmem
        have hr : ([u].filter (fun y => y ≠ u)) = [] := by simp
        rw [hl, hr, List.append_nil]
      obtain ⟨s1, hs1⟩ : ∃ t, (toggleLikePost u pid s).2 = t := ⟨_, rfl⟩
      rw [hs1] at hfind1 ⊢
      have hg2 : ∀ q : Post,
          ((fun q => if q.id = pid then { p with likedBy := pull u (p.likedBy ++ [u]) } else q) q).id
            = q.id := by
        intro q
        by_cases hq : q.id = pid <;> simp [hq, hpid]
      have h2 : (toggleLikePost u pid s1).2.posts =
          s1.posts.map
            (fun q => if q.id = pid
              then { p with likedBy := pull u (p.likedBy ++ [u]) } else q) := by
        simp [toggleLikePost, hfind1, hmem1, updatePostById]
      refine ⟨{ p with likedBy := pull u (p.likedBy ++ [u]) }, ?_, ?_⟩
      · show (toggleLikePost u pid s1).2.posts.find? (fun q => q.id = pid) = _
        rw [h2, find?_id_map Post.id _ hg2]
        have hf : s1.posts.find? (fun q => q.id = pid) =
            some { p with likedBy := p.likedBy ++ [u] } := hfind1
        rw [hf]
        simp [hpid]
      · intro x
        rw [show ({ p with likedBy := pull u (p.likedBy ++ [u]) } : Post).likedBy
          = pull u (p.likedBy ++ [u]) from rfl, hpull]
  · intro c hc
    have hcid : c.id = cid := findComment_some_id hc
    have hc' : s.comments.find? (fun d => d.id = cid) = some c := hc
    refine ⟨fun hmem => by simp [toggleLikeComment, hc, hmem],
            fun hmem => by simp [toggleLikeComment, hc, hmem], ?_⟩
    by_cases hmem : u ∈ c.likedBy
    · have hg : ∀ d : Comment,
          ((fun d => if d.id = cid then { c with likedBy := pull u c.likedBy } else d) d).id
            = d.id := by
        intro d
        by_cases hd : d.id = cid <;> simp [hd, hcid]
      have h1 : (toggleLikeComment u cid s).2.comments =
          s.comments.map (fun d => if d.id = cid then { c with likedBy := pull u c.likedBy } else d) := by
        simp [toggleLikeComment, hc, hmem, updateCommentById]
      have hfind1 : (toggleLikeComment u cid s).2.findComment cid =
          some { c with likedBy := pull u c.likedBy } := by
        show (toggleLikeComment u cid s).2.comments.find? (fun d => d.id = cid) = _
        rw [h1, find?_id_map Comment.id _ hg, hc']
        simp [hcid]
      have hmem1 : u ∉ ({ c with likedBy := pull u c.likedBy } : Comment).likedBy := by
        simp [mem_pull]
      obtain ⟨s1, hs1⟩ : ∃ t, (toggleLikeComment u cid s).2 = t := ⟨_, rfl⟩
      rw [hs1] at hfind1 ⊢
      have hg2 : ∀ d : Comment,
          ((fun d => if d.id = cid then { c with likedBy := pull u c.likedBy ++ [u] } else d) d).id
            = d.id := by
        intro d
        by_cases hd : d.id = cid <;> simp [hd, hcid]
      have h2 : (toggleLikeComment u cid s1).2.comments =
          s1.comments.map
            (fun d => if d.id = cid then { c with likedBy := pull u c.likedBy ++ [u] } else d) := by
        simp [toggleLikeComment, hfind1, hmem1, updateCommentById]
      refine ⟨{ c with likedBy := pull u c.likedBy ++ [u] }, ?_, ?_⟩
      · show (toggleLikeComment u cid s1).2.comments.find? (fun d => d.id = cid) = _
        rw [h2, find?_id_map Comment.id _ hg2]
        have hf : s1.comments.find? (fun d => d.id = cid) =
            some { c with likedBy := pull u c.likedBy } := hfind1
        rw [hf]
        simp [hcid]
      · intro x
        exact toggle_twice_mem c.likedBy u x hmem
    · have hg : ∀ d : Comment,
          ((fun d => if d.id = cid then { c with likedBy := c.likedBy ++ [u] } else d) d).id
            = d.id := by
        intro d
        by_cases hd : d.id = cid <;> simp [hd, hcid]
      have h1 : (toggleLikeComment u cid s).2.comments =
          s.comments.map (fun d => if d.id = cid then { c with likedBy := c.likedBy ++ [u] } else d) := by
        simp [toggleLikeComment, hc, hmem, updateCommentById]
      have hfind1 : (toggleLikeComment u cid s).2.findComment cid =
          some { c with likedBy := c.likedBy ++ [u] } := by
        show (toggleLikeComment u cid s).2.comments.find? (fun d => d.id = cid) = _
        rw [h1, find?_id_map Comment.id _ hg, hc']
        simp [hcid]
      have hmem1 : u ∈ ({ c with likedBy := c.likedBy ++ [u] } : Comment).likedBy := by
        simp
      have hpull : pull u (c.likedBy ++ [u]) = c.likedBy := by
        unfold pull
        rw [List.filter_append]
        have hl : c.likedBy.filter (fun y => y ≠ u) = c.likedBy := pull_of_not_mem hmem
        have hr : ([u].filter (fun y => y ≠ u)) = [] := by simp
        rw [hl, hr, List.append_nil]
      obtain ⟨s1, hs1⟩ : ∃ t, (toggleLikeComment u cid s).2 = t := ⟨_, rfl⟩
      rw [hs1] at hfind1 ⊢
      have hg2 : ∀ d : Comment,
          ((fun d => if d.id = cid then { c with likedBy := pull u (c.likedBy ++ [u]) } else d) d).id
            = d.id := by
        intro d
        by_cases hd : d.id = cid <;> simp [hd, hcid]
      have h2 : (toggleLikeComment u cid s1).2.comments =
          s1.comments.map
            (fun d => if d.id = cid
              then { c with likedBy := pull u (c.likedBy ++ [u]) } else d) := by
        simp [toggleLikeComment, hfind1, hmem1, updateCommentById]
      refine ⟨{ c with likedBy := pull u (c.likedBy ++ [u]) }, ?_, ?_⟩
      · show (toggleLikeComment u cid s1).2.comments.find? (fun d => d.id = cid) = _
        rw [h2, find?_id_map Comment.id _ hg2]
        have hf : s1.comments.find? (fun d => d.id = cid) =
            some { c with likedBy := c.likedBy ++ [u] } := hfind1
        rw [hf]
        simp [hcid]
      · intro x
        rw [show ({ c with likedBy := pull u (c.likedBy ++ [u]) } : Comment).likedBy
          = pull u (c.likedBy ++ [u]) from rfl, hpull]

/-- A store with one post (liked by 5 and 7) and one comment (no likes). -/
def toggleStore : Store :=
  { users := [], posts := [⟨100, 1, "t", "c", [5, 7], [], 0⟩],
    comments := [⟨400, 2, 300, "hi", [], 3⟩], requests := [] }

/-- C3 witness: actor 7 toggling the concrete post and comment. -/
theorem toggle_like_involution_witness :
    (toggleStore.findPost 100 = some ⟨100, 1, "t", "c", [5, 7], [], 0⟩ ∧
     toggleStore.findComment 400 = some ⟨400, 2, 300, "hi", [], 3⟩) ∧
    ((7 ∈ [5, 7] →
        (toggleLikePost 7 100 toggleStore).1 =
          .ok (⟨100, 1, "t", "c", [5], [], 0⟩, "Like removed")) ∧
     (7 ∉ [5, 7] →
        (toggleLikePost 7 100 toggleStore).1 =
          .ok (⟨100, 1, "t", "c", [5, 7, 7], [], 0⟩, "Like added")) ∧
     ∃ p2, (toggleLikePost 7 100 (toggleLikePost 7 100 toggleStore).2).2.findPost 100 = some p2 ∧
        ∀ x, x ∈ p2.likedBy ↔ x ∈ [5, 7]) ∧
    ((7 ∈ ([] : List Nat) →
        (toggleLikeComment 7 400 toggleStore).1 =
          .ok (⟨400, 2, 300, "hi", [], 3⟩, "Like removed")) ∧
     (7 ∉ ([] : List Nat) →
        (toggleLikeComment 7 400 toggleStore).1 =
          .ok (⟨400, 2, 300, "hi", [7], 3⟩, "Like added")) ∧
     ∃ c2, (toggleLikeComment 7 400 (toggleLikeComment 7 400 toggleStore).2).2.findComment 400
          = some c2 ∧
        ∀ x, x ∈ c2.likedBy ↔ x ∈ ([] : List Nat)) :=
  ⟨by decide,
   (toggle_like_involution toggleStore 100 400 7).1 ⟨100, 1, "t", "c", [5, 7], [], 0⟩ (by decide),
   (toggle_like_involution toggleStore 100 400 7).2 ⟨400, 2, 300, "hi", [], 3⟩ (by decide)⟩

/-- A page request beyond the last page selects an empty slice. -/
theorem drop_take_beyond (M : List Post) (page limit : Nat) (hp : 1 ≤ page)
    (hl : 1 ≤ limit) (hlt : mathCeil M.length limit < page) :
    ((sortDescBy Post.createdAt M).drop ((page - 1) * limit)).take limit = [] := by
  have h2 := le_mathCeil_mul M.length limit hl
  have h3 : mathCeil M.length limit ≤ page - 1 := by omega
  have h1 : M.length ≤ (page - 1) * limit :=
    le_trans h2 (Nat.mul_le_mul_right limit h3)
  rw [List.drop_eq_nil_of_le (by rw [length_sortDescBy]; exact h1)]
  simp

/-- C4: for `page ≥ 1` and `limit ≥ 1`, `getAllPosts` and `getFeed` return
the envelope whose `count` is the number of matching posts, whose `data` is
the slice of the full createdAt-descending result at offsets
`(page-1)*limit .. (page-1)*limit + limit - 1`, whose `totalPages` is
exactly `ceil(count/limit)` (characterised as the least `m` with
`count ≤ m*limit`), and a `page` beyond `totalPages` yields an empty item
list (not an error), with the other envelope fields intact. -/
theorem feed_pagination_spec (s : Store) (userId page limit : Nat)
    (hp : 1 ≤ page) (hl : 1 ≤ limit) :
    ((getAllPosts userId page limit s).page = page ∧
     (getAllPosts userId page limit s).count
       = (s.posts.filter (fun p => p.author = userId)).length ∧
     (getAllPosts userId page limit s).data =
       ((sortDescBy Post.createdAt (s.posts.filter (fun p => p.author = userId))).drop
         ((page - 1) * limit)).take limit ∧
     (getAllPosts userId page limit s).count
       ≤ (getAllPosts userId page limit s).totalPages * limit ∧
     (∀ m, (getAllPosts userId page limit s).count ≤ m * limit →
        (getAllPosts userId page limit s).totalPages ≤ m) ∧
     ((getAllPosts userId page limit s).totalPages < page →
        (getAllPosts userId page limit s).data = [])) ∧
    (∀ u, s.findUser userId = some u →
      ∃ r, getFeed userId page limit s = .ok r ∧
        r.page = page ∧
        r.count = (s.posts.filter (fun p => p.author ∈ u.friends)).length ∧
        r.data = ((sortDescBy Post.createdAt
            (s.posts.filter (fun p => p.author ∈ u.friends))).drop
          ((page - 1) * limit)).take limit ∧
        r.count ≤ r.totalPages * limit ∧
        (∀ m, r.count ≤ m * limit → r.totalPages ≤ m) ∧
        (r.totalPages < page → r.data = [])) := by
  have hp0 : jsOr page 1 = page := by
    unfold jsOr
    rw [if_neg (by omega)]
  have hl0 : jsOr limit 10 = limit := by
    unfold jsOr
    rw [if_neg (by omega)]
  constructor
  · refine ⟨by simp [getAllPosts, hp0, hl0], by simp [getAllPosts, hp0, hl0],
      by simp [getAllPosts, hp0, hl0], ?_, ?_, ?_⟩
    · have h1 : (getAllPosts userId page limit s).count
          = (s.posts.filter (fun p => p.author = userId)).length := by
        simp [getAllPosts, hp0, hl0]
      have h2 : (getAllPosts userId page limit s).totalPages
          = mathCeil (s.posts.filter (fun p => p.author = userId)).length limit := by
        simp [getAllPosts, hp0, hl0]
      rw [h1, h2]
      exact le_mathCeil_mul _ limit hl
    · intro m hm
      have h1 : (getAllPosts userId page limit s).count
          = (s.posts.filter (fun p => p.author = userId)).length := by
        simp [getAllPosts, hp0, hl0]
      have h2 : (getAllPosts userId page limit s).totalPages
          = mathCeil (s.posts.filter (fun p => p.author = userId)).length limit := by
        simp [getAllPosts, hp0, hl0]
      rw [h2]
      rw [h1] at hm
      exact mathCeil_le m hl hm
    · intro hlt
      have h2 : (getAllPosts userId page limit s).totalPages
          = mathCeil (s.posts.filter (fun p => p.author = userId)).length limit := by
        simp [getAllPosts, hp0, hl0]
      rw [h2] at hlt
      have h3 : (getAllPosts userId page limit s).data =
          ((sortDescBy Post.createdAt (s.posts.filter (fun p => p.author = userId))).drop
            ((page - 1) * limit)).take limit := by
        simp [getAllPosts, hp0, hl0]
      rw [h3]
      exact drop_take_beyond _ page limit hp hl hlt
  · intro u hu
    refine ⟨{ data := ((sortDescBy Post.createdAt (s.posts.filter (fun p => p.author ∈ u.friends))).drop ((page - 1) * limit)).take limit, count := (s.posts.filter (fun p => p.author ∈ u.friends)).length, page := page, totalPages := mathCeil (s.posts.filter (fun p => p.author ∈ u.friends)).length limit }, ?_, rfl, rfl, rfl, ?_, ?_, ?_⟩
    · simp [getFeed, hu, hp0, hl0]
    · exact le_mathCeil_mul _ limit hl
    · exact fun m hm => mathCeil_le m hl hm
    · exact fun hlt => drop_take_beyond _ page limit hp hl hlt

/-- A store for the pagination witness: user 1 is friends with 2, who
authored the single post. -/
def feedStore : Store :=
  { users := [⟨1, [2], []⟩, ⟨2, [1], [200]⟩],
    posts := [⟨200, 2, "p", "c", [], [], 5⟩], comments := [], requests := [] }

/-- C4 witness: page 2 of limit 10 over one matching post is empty, with
`count = 1` and `totalPages = 1`. -/
theorem feed_pagination_spec_witness :
    (1 ≤ 2 ∧ 1 ≤ 10 ∧ feedStore.findUser 1 = some ⟨1, [2], []⟩) ∧
    ∃ r, getFeed 1 2 10 feedStore = .ok r ∧
      r.page = 2 ∧
      r.count = (feedStore.posts.filter (fun p => p.author ∈ [2])).length ∧
      r.data = ((sortDescBy Post.createdAt
          (feedStore.posts.filter (fun p => p.author ∈ [2]))).drop ((2 - 1) * 10)).take 10 ∧
      r.count ≤ r.totalPages * 10 ∧
      (∀ m, r.count ≤ m * 10 → r.totalPages ≤ m) ∧
      (r.totalPages < 2 → r.data = []) :=
  ⟨⟨by decide, by decide, by decide⟩,
   (feed_pagination_spec feedStore 1 2 10 (by decide) (by decide)).2
     ⟨1, [2], []⟩ (by decide)⟩

/-- A store with no users at all. -/
def emptyStore : Store :=
  { users := [], posts := [], comments := [], requests := [] }

/-- C5: at a requester id with no User record, each of the three feed
operations takes the user-missing branch — but the feed controller module
never imports `AppError`, so `new AppError("User not found", 404)` throws
`ReferenceError: AppError is not defined`, which the error handler reports
as a 500 response, not the 404 `NotFound` of the spec.  No store mutation
happens (the operations are read-only). -/
theorem feed_missing_requester_reference_error :
    getFeed 1 1 10 emptyStore = .err (.referenceError "AppError is not defined") ∧
    getFriendCommentFeed 1 1 10 emptyStore
      = .err (.referenceError "AppError is not defined") ∧
    getFriendLikedPosts 1 1 10 emptyStore
      = .err (.referenceError "AppError is not defined") := by
  decide

/-- C6: for an existing requester, the friend-liked feed (page 1, limit at
least the number of posts) returns exactly the posts whose liked-by set
meets the requester's friends set and whose author is not a friend, in
createdAt-descending order. -/
theorem friend_liked_feed_spec (s : Store) (userId limit : Nat) (u : User)
    (hu : s.findUser userId = some u) (hl1 : 1 ≤ limit)
    (hl : s.posts.length ≤ limit) :
    ∃ r, getFriendLikedPosts userId 1 limit s = .ok r ∧
      (∀ p, p ∈ r.data ↔
        p ∈ s.posts ∧ (∃ x ∈ p.likedBy, x ∈ u.friends) ∧ p.author ∉ u.friends) ∧
      r.data.Pairwise (fun a b => b.createdAt ≤ a.createdAt) := by
  have hl0 : jsOr limit 10 = limit := by
    unfold jsOr
    rw [if_neg (by omega)]
  have hlen : (sortDescBy Post.createdAt (s.posts.filter
      (fun p => p.likedBy.any (fun x => x ∈ u.friends) ∧ ¬ p.author ∈ u.friends))).length
      ≤ limit := by
    rw [length_sortDescBy]
    exact le_trans (List.length_filter_le _ _) hl
  have hdata : (((sortDescBy Post.createdAt (s.posts.filter
      (fun p => p.likedBy.any (fun x => x ∈ u.friends) ∧ ¬ p.author ∈ u.friends))).drop
        ((1 - 1) * limit)).take limit)
      = sortDescBy Post.createdAt (s.posts.filter
          (fun p => p.likedBy.any (fun x => x ∈ u.friends) ∧ ¬ p.author ∈ u.friends)) := by
    rw [show (1 - 1) * limit = 0 by omega, List.drop_zero, List.take_of_length_le hlen]
  refine ⟨{ data := ((sortDescBy Post.createdAt (s.posts.filter (fun p => p.likedBy.any (fun x => x ∈ u.friends) ∧ ¬ p.author ∈ u.friends))).drop ((1 - 1) * limit)).take limit, count := (s.posts.filter (fun p => p.likedBy.any (fun x => x ∈ u.friends) ∧ ¬ p.author ∈ u.friends)).length, page := 1, totalPages := mathCeil (s.posts.filter (fun p => p.likedBy.any (fun x => x ∈ u.friends) ∧ ¬ p.author ∈ u.friends)).length limit }, ?_, ?_, ?_⟩
  · simp only [getFriendLikedPosts, hu, hl0, show jsOr 1 1 = 1 from rfl]
  · intro p
    rw [show (({ data := ((sortDescBy Post.createdAt (s.posts.filter (fun p => p.likedBy.any (fun x => x ∈ u.friends) ∧ ¬ p.author ∈ u.friends))).drop ((1 - 1) * limit)).take limit, count := (s.posts.filter (fun p => p.likedBy.any (fun x => x ∈ u.friends) ∧ ¬ p.author ∈ u.friends)).length, page := 1, totalPages := mathCeil (s.posts.filter (fun p => p.likedBy.any (fun x => x ∈ u.friends) ∧ ¬ p.author ∈ u.friends)).length limit } : Page Post)).data = (((sortDescBy Post.createdAt (s.posts.filter (fun p => p.likedBy.any (fun x => x ∈ u.friends) ∧ ¬ p.author ∈ u.friends))).drop ((1 - 1) * limit)).take limit) from rfl, hdata, mem_sortDescBy, List.mem_filter]
    simp [List.any_eq_true]
  · rw [show (({ data := ((sortDescBy Post.createdAt (s.posts.filter (fun p => p.likedBy.any (fun x => x ∈ u.friends) ∧ ¬ p.author ∈ u.friends))).drop ((1 - 1) * limit)).take limit, count := (s.posts.filter (fun p => p.likedBy.any (fun x => x ∈ u.friends) ∧ ¬ p.author ∈ u.friends)).length, page := 1, totalPages := mathCeil (s.posts.filter (fun p => p.likedBy.any (fun x => x ∈ u.friends) ∧ ¬ p.author ∈ u.friends)).length limit } : Page Post)).data = (((sortDescBy Post.createdAt (s.posts.filter (fun p => p.likedBy.any (fun x => x ∈ u.friends) ∧ ¬ p.author ∈ u.friends))).drop ((1 - 1) * limit)).take limit) from rfl, hdata]
    exact sorted_sortDescBy _ _

/-- A store where stranger 3's post is liked by 2, a friend of requester 1. -/
def likedStore : Store :=
  { users := [⟨1, [2], []⟩, ⟨2, [1], []⟩, ⟨3, [], [300]⟩],
    posts := [⟨300, 3, "p2", "c2", [2], [], 7⟩], comments := [], requests := [] }

/-- C6 witness: requester 1's friend-liked feed over the concrete store. -/
theorem friend_liked_feed_spec_witness :
    (likedStore.findUser 1 = some ⟨1, [2], []⟩ ∧ 1 ≤ 10 ∧ likedStore.posts.length ≤ 10) ∧
    ∃ r, getFriendLikedPosts 1 1 10 likedStore = .ok r ∧
      (∀ p, p ∈ r.data ↔
        p ∈ likedStore.posts ∧ (∃ x ∈ p.likedBy, x ∈ [2]) ∧ p.author ∉ [2]) ∧
      r.data.Pairwise (fun a b => b.createdAt ≤ a.createdAt) :=
  ⟨⟨by decide, by decide, by decide⟩,
   friend_liked_feed_spec likedStore 1 10 ⟨1, [2], []⟩ (by decide) (by decide) (by decide)⟩

/-- C7: for an existing requester with distinct post ids and every post's
author on record (page 1, limit at least the number of posts), the
friend-comment feed returns exactly one document per post that is authored
by a non-friend and has at least one friend-authored comment; the document
carries only the post's friend-authored comments, each qualifying post
appears once (distinct ids), and documents are in createdAt-descending
order of the posts. -/
theorem friend_comment_feed_spec (s : Store) (userId limit : Nat) (u : User)
    (hu : s.findUser userId = some u)
    (hnd : (s.posts.map Post.id).Nodup)
    (hauth : ∀ p ∈ s.posts, ∃ v ∈ s.users, v.id = p.author)
    (hl1 : 1 ≤ limit) (hl : s.posts.length ≤ limit) :
    ∃ r, getFriendCommentFeed userId 1 limit s = .ok r ∧
      (∀ g, g ∈ r.data ↔ ∃ p, p ∈ s.posts ∧ p.author ∉ u.friends ∧
          friendComments u.friends s p ≠ [] ∧ g = toGrouped u.friends s p) ∧
      (r.data.map GroupedPost.id).Nodup ∧
      r.data.Pairwise (fun a b => b.createdAt ≤ a.createdAt) := by
  have hl0 : jsOr limit 10 = limit := by
    unfold jsOr
    rw [if_neg (by omega)]
  have hcand : ((s.posts.filter (fun p => ¬ p.author ∈ u.friends)).map Post.id).Nodup :=
    ((List.filter_sublist s.posts).map Post.id).nodup hnd
  have hgroup : groupRows (friendCommentRows u.friends s) =
      ((s.posts.filter (fun p => ¬ p.author ∈ u.friends)).filter
        (fun p => ¬ friendComments u.friends s p = [])).map
        (fun p => { id := p.id, title := p.title, content := p.content,
                    author := p.author, createdAt := p.createdAt,
                    comments := friendComments u.friends s p }) := by
    rw [friendCommentRows_eq]
    exact groupRows_flatMap (friendComments u.friends s) _ hcand
  have hglen : (groupRows (friendCommentRows u.friends s)).length ≤ limit := by
    rw [hgroup, List.length_map]
    calc (List.filter _ (List.filter _ s.posts)).length
        ≤ (List.filter (fun p => ¬ p.author ∈ u.friends) s.posts).length :=
          List.length_filter_le _ _
      _ ≤ s.posts.length := List.length_filter_le _ _
      _ ≤ limit := hl
  have hlen : (sortDescBy GroupedPost.createdAt
      (groupRows (friendCommentRows u.friends s))).length ≤ limit := by
    rw [length_sortDescBy]
    exact hglen
  have hmemg : ∀ g, g ∈ groupRows (friendCommentRows u.friends s) ↔
      ∃ p, p ∈ s.posts ∧ p.author ∉ u.friends ∧
        friendComments u.friends s p ≠ [] ∧ g = toGrouped u.friends s p := by
    intro g
    rw [hgroup, List.mem_map]
    constructor
    · rintro ⟨p, hp, hgp⟩
      rw [List.mem_filter] at hp
      rcases hp with ⟨hp1, hp2⟩
      rw [List.mem_filter] at hp1
      exact ⟨p, hp1.1, by simpa using hp1.2, by simpa using hp2, hgp.symm⟩
    · rintro ⟨p, hp, hnf, hne, hgp⟩
      refine ⟨p, ?_, hgp.symm⟩
      rw [List.mem_filter]
      refine ⟨?_, by simpa using hne⟩
      rw [List.mem_filter]
      exact ⟨hp, by simpa using hnf⟩
  have hfilter : (sortDescBy GroupedPost.createdAt
      (groupRows (friendCommentRows u.friends s))).filter
        (fun g => s.users.any (fun v => v.id = g.author)) =
      sortDescBy GroupedPost.createdAt (groupRows (friendCommentRows u.friends s)) := by
    apply List.filter_eq_self.mpr
    intro g hg
    rw [mem_sortDescBy] at hg
    rcases (hmemg g).mp hg with ⟨p, hp, _, _, hgp⟩
    rcases hauth p hp with ⟨v, hv, hvid⟩
    rw [List.any_eq_true]
    refine ⟨v, hv, ?_⟩
    rw [hgp]
    simpa [toGrouped] using hvid
  have hmain : getFriendCommentFeed userId 1 limit s =
      .ok { data := sortDescBy GroupedPost.createdAt (groupRows (friendCommentRows u.friends s)), count := (groupRows (friendCommentRows u.friends s)).length, page := 1, totalPages := mathCeil (groupRows (friendCommentRows u.friends s)).length limit } := by
    simp only [getFriendCommentFeed, hu, hl0, show jsOr 1 1 = 1 from rfl,
      show (1 - 1) * limit = 0 from by omega, List.drop_zero,
      List.take_of_length_le hlen, hfilter]
  refine ⟨_, hmain, ?_, ?_, ?_⟩
  · intro g
    rw [show ({ data := sortDescBy GroupedPost.createdAt (groupRows (friendCommentRows u.friends s)), count := (groupRows (friendCommentRows u.friends s)).length, page := 1, totalPages := mathCeil (groupRows (friendCommentRows u.friends s)).length limit } : Page GroupedPost).data = sortDescBy GroupedPost.createdAt (groupRows (friendCommentRows u.friends s)) from rfl]
    rw [mem_sortDescBy]
    exact hmemg g
  · rw [show ({ data := sortDescBy GroupedPost.createdAt (groupRows (friendCommentRows u.friends s)), count := (groupRows (friendCommentRows u.friends s)).length, page := 1, totalPages := mathCeil (groupRows (friendCommentRows u.friends s)).length limit } : Page GroupedPost).data = sortDescBy GroupedPost.createdAt (groupRows (friendCommentRows u.friends s)) from rfl]
    have hperm := (sortDescBy_perm GroupedPost.createdAt
      (groupRows (friendCommentRows u.friends s))).map GroupedPost.id
    rw [hperm.nodup_iff, hgroup, List.map_map]
    have : (GroupedPost.id ∘ fun p : Post =>
        ({ id := p.id, title := p.title, content := p.content,
           author := p.author, createdAt := p.createdAt,
           comments := friendComments u.friends s p } : GroupedPost)) = Post.id := by
      funext p
      rfl
    rw [this]
    exact (((List.filter_sublist _).trans (List.filter_sublist s.posts)).map Post.id).nodup hnd
  · rw [show ({ data := sortDescBy GroupedPost.createdAt (groupRows (friendCommentRows u.friends s)), count := (groupRows (friendCommentRows u.friends s)).length, page := 1, totalPages := mathCeil (groupRows (friendCommentRows u.friends s)).length limit } : Page GroupedPost).data = sortDescBy GroupedPost.createdAt (groupRows (friendCommentRows u.friends s)) from rfl]
    exact sorted_sortDescBy _ _

/-- A store where stranger 3's post carries one comment by friend 2 and one
by 3 themselves. -/
def commentStore : Store :=
  { users := [⟨1, [2], []⟩, ⟨2, [1], []⟩, ⟨3, [], [300]⟩],
    posts := [⟨300, 3, "p2", "c2", [], [400, 401], 7⟩],
    comments := [⟨400, 2, 300, "hi", [], 8⟩, ⟨401, 3, 300, "me", [], 9⟩],
    requests := [] }

/-- C7 witness: requester 1's friend-comment feed over the concrete store. -/
theorem friend_comment_feed_spec_witness :
    (commentStore.findUser 1 = some ⟨1, [2], []⟩ ∧
     (commentStore.posts.map Post.id).Nodup ∧
     (∀ p ∈ commentStore.posts, ∃ v ∈ commentStore.users, v.id = p.author) ∧
     1 ≤ 10 ∧ commentStore.posts.length ≤ 10) ∧
    ∃ r, getFriendCommentFeed 1 1 10 commentStore = .ok r ∧
      (∀ g, g ∈ r.data ↔ ∃ p, p ∈ commentStore.posts ∧ p.author ∉ [2] ∧
          friendComments [2] commentStore p ≠ [] ∧ g = toGrouped [2] commentStore p) ∧
      (r.data.map GroupedPost.id).Nodup ∧
      r.data.Pairwise (fun a b => b.createdAt ≤ a.createdAt) :=
  ⟨⟨by decide, by decide, by decide, by decide, by decide⟩,
   friend_comment_feed_spec commentStore 1 10 ⟨1, [2], []⟩
     (by decide) (by decide) (by decide) (by decide) (by decide)⟩

/-- C8: self-deleting an existing user succeeds and cascades: afterwards no
post is authored by the user, no liked-by set and no friends set mentions
them, no friend request names them as sender or receiver, and no comment of
theirs remains; everything else survives — every other post is kept with the
user pulled from its liked-by set, every other user with the user pulled
from their friends set, and requests/comments not naming the user are
kept. -/
theorem delete_user_cascade (s : Store) (uid : Nat) (user : User)
    (hu : s.findUser uid = some user) :
    (deleteUser uid uid s).1 = .ok "User deleted successfully" ∧
    (∀ p ∈ (deleteUser uid uid s).2.posts, p.author ≠ uid ∧ uid ∉ p.likedBy) ∧
    (∀ v ∈ (deleteUser uid uid s).2.users, v.id ≠ uid ∧ uid ∉ v.friends) ∧
    (∀ r ∈ (deleteUser uid uid s).2.requests, r.sender ≠ uid ∧ r.receiver ≠ uid) ∧
    (∀ c ∈ (deleteUser uid uid s).2.comments, c.author ≠ uid) ∧
    (∀ p ∈ s.posts, p.author ≠ uid →
      { p with likedBy := pull uid p.likedBy } ∈ (deleteUser uid uid s).2.posts) ∧
    (∀ v ∈ s.users, v.id ≠ uid →
      { v with friends := pull uid v.friends } ∈ (deleteUser uid uid s).2.users) ∧
    (∀ r ∈ s.requests, r.sender ≠ uid → r.receiver ≠ uid →
      r ∈ (deleteUser uid uid s).2.requests) ∧
    (∀ c ∈ s.comments, c.author ≠ uid → c ∈ (deleteUser uid uid s).2.comments) := by
  have hbid : user.id = uid := findUser_some_id hu
  have hposts : (deleteUser uid uid s).2.posts =
      (s.posts.filter (fun p => p.author ≠ uid)).map
        (fun p : Post => { p with likedBy := pull uid p.likedBy }) := by
    simp [deleteUser, hu, hbid]
  have husers : (deleteUser uid uid s).2.users =
      (s.users.filter (fun v => v.id ≠ uid)).map
        (fun v : User => { v with friends := pull uid v.friends }) := by
    simp [deleteUser, hu, hbid]
  have hreq : (deleteUser uid uid s).2.requests =
      s.requests.filter (fun r => ¬ (r.sender = uid ∨ r.receiver = uid)) := by
    simp [deleteUser, hu, hbid]
  have hcom : (deleteUser uid uid s).2.comments =
      s.comments.filter (fun c => c.author ≠ uid) := by
    simp [deleteUser, hu, hbid]
  refine ⟨by simp [deleteUser, hu, hbid], ?_, ?_, ?_, ?_, ?_, ?_, ?_, ?_⟩
  · intro p hp
    rw [hposts, List.mem_map] at hp
    rcases hp with ⟨q, hq, rfl⟩
    rw [List.mem_filter] at hq
    refine ⟨by simpa using hq.2, ?_⟩
    show uid ∉ pull uid q.likedBy
    simp [mem_pull]
  · intro v hv
    rw [husers, List.mem_map] at hv
    rcases hv with ⟨w, hw, rfl⟩
    rw [List.mem_filter] at hw
    refine ⟨by simpa using hw.2, ?_⟩
    show uid ∉ pull uid w.friends
    simp [mem_pull]
  · intro r hr
    rw [hreq, List.mem_filter] at hr
    have := hr.2
    simp only [decide_eq_true_eq] at this
    exact ⟨fun h1 => this (Or.inl h1), fun h2 => this (Or.inr h2)⟩
  · intro c hc
    rw [hcom, List.mem_filter] at hc
    simpa using hc.2
  · intro p hp hne
    rw [hposts, List.mem_map]
    exact ⟨p, List.mem_filter.mpr ⟨hp, by simpa using hne⟩, rfl⟩
  · intro v hv hne
    rw [husers, List.mem_map]
    exact ⟨v, List.mem_filter.mpr ⟨hv, by simpa using hne⟩, rfl⟩
  · intro r hr h1 h2
    rw [hreq, List.mem_filter]
    refine ⟨hr, by simp [h1, h2]⟩
  · intro c hc hne
    rw [hcom, List.mem_filter]
    exact ⟨hc, by simpa using hne⟩

/-- A store exercising every arm of the deletion cascade for user 1. -/
def cascadeStore : Store :=
  { users := [⟨1, [2], [500]⟩, ⟨2, [1], []⟩],
    posts := [⟨500, 1, "a", "b", [2], [], 1⟩, ⟨501, 2, "x", "y", [1], [], 2⟩],
    comments := [⟨600, 1, 501, "z", [], 3⟩, ⟨601, 2, 501, "w", [], 4⟩],
    requests := [⟨700, 1, 2, .pending⟩, ⟨701, 2, 1, .accepted⟩] }

/-- C8 witness: user 1 self-deletes in the concrete store. -/
theorem delete_user_cascade_witness :
    (cascadeStore.findUser 1 = some ⟨1, [2], [500]⟩) ∧
    ((deleteUser 1 1 cascadeStore).1 = .ok "User deleted successfully" ∧
     (∀ p ∈ (deleteUser 1 1 cascadeStore).2.posts, p.author ≠ 1 ∧ 1 ∉ p.likedBy) ∧
     (∀ v ∈ (deleteUser 1 1 cascadeStore).2.users, v.id ≠ 1 ∧ 1 ∉ v.friends) ∧
     (∀ r ∈ (deleteUser 1 1 cascadeStore).2.requests, r.sender ≠ 1 ∧ r.receiver ≠ 1) ∧
     (∀ c ∈ (deleteUser 1 1 cascadeStore).2.comments, c.author ≠ 1) ∧
     (∀ p ∈ cascadeStore.posts, p.author ≠ 1 →
       { p with likedBy := pull 1 p.likedBy } ∈ (deleteUser 1 1 cascadeStore).2.posts) ∧
     (∀ v ∈ cascadeStore.users, v.id ≠ 1 →
       { v with friends := pull 1 v.friends } ∈ (deleteUser 1 1 cascadeStore).2.users) ∧
     (∀ r ∈ cascadeStore.requests, r.sender ≠ 1 → r.receiver ≠ 1 →
       r ∈ (deleteUser 1 1 cascadeStore).2.requests) ∧
     (∀ c ∈ cascadeStore.comments, c.author ≠ 1 →
       c ∈ (deleteUser 1 1 cascadeStore).2.comments)) :=
  ⟨by decide, delete_user_cascade cascadeStore 1 ⟨1, [2], [500]⟩ (by decide)⟩

/-- C9: a non-author actor can neither update nor delete an existing post
or comment: each operation fails with the 401 `Unauthorized` error and
returns the store entirely unchanged. -/
theorem ownership_enforcement (s : Store) (actor pid pid2 cid : Nat)
    (body : PostBody) (cbody : CommentBody) :
    (∀ p, s.findPost pid = some p → actor ≠ p.author →
      updatePost actor pid body s
        = (.err (.appError "You are not authorized to update this post" 401), s) ∧
      deletePost actor pid s
        = (.err (.appError "You are not authorized to delete this post" 401), s)) ∧
    (∀ q c, s.findPost pid2 = some q → s.findComment cid = some c → actor ≠ c.author →
      deleteComment actor pid2 cid s
        = (.err (.appError "You are not authorized to update this comment" 401), s) ∧
      updateComment actor cid cbody s
        = (.err (.appError "You are not authorized to update this comment" 401), s)) := by
  constructor
  · intro p hp hne
    have hna : p.author ≠ actor := Ne.symm hne
    exact ⟨by simp [updatePost, hp, hna], by simp [deletePost, hp, hna]⟩
  · intro q c hq hc hne
    have hna : c.author ≠ actor := Ne.symm hne
    exact ⟨by simp [deleteComment, hq, hc, hna], by simp [updateComment, hc, hna]⟩

/-- A store whose post is authored by 1 and whose comment is authored
by 2. -/
def ownerStore : Store :=
  { users := [], posts := [⟨500, 1, "a", "b", [], [600], 1⟩],
    comments := [⟨600, 2, 500, "z", [], 3⟩], requests := [] }

/-- C9 witness: actor 9 (neither author) against the concrete store. -/
theorem ownership_enforcement_witness :
    (ownerStore.findPost 500 = some ⟨500, 1, "a", "b", [], [600], 1⟩ ∧
     ownerStore.findComment 600 = some ⟨600, 2, 500, "z", [], 3⟩ ∧
     (9 : Nat) ≠ 1 ∧ (9 : Nat) ≠ 2) ∧
    (updatePost 9 500 ⟨none, none⟩ ownerStore
        = (.err (.appError "You are not authorized to update this post" 401), ownerStore) ∧
     deletePost 9 500 ownerStore
        = (.err (.appError "You are not authorized to delete this post" 401), ownerStore)) ∧
    (deleteComment 9 500 600 ownerStore
        = (.err (.appError "You are not authorized to update this comment" 401), ownerStore) ∧
     updateComment 9 600 ⟨none⟩ ownerStore
        = (.err (.appError "You are not authorized to update this comment" 401), ownerStore)) :=
  ⟨by decide,
   (ownership_enforcement ownerStore 9 500 500 600 ⟨none, none⟩ ⟨none⟩).1
     ⟨500, 1, "a", "b", [], [600], 1⟩ (by decide) (by decide),
   (ownership_enforcement ownerStore 9 500 500 600 ⟨none, none⟩ ⟨none⟩).2
     ⟨500, 1, "a", "b", [], [600], 1⟩ ⟨600, 2, 500, "z", [], 3⟩
     (by decide) (by decide) (by decide)⟩

/-- C10: `sendFriendRequest` performs no existence check on the receiver:
for any store in which the sender exists, any present receiver id different
from the sender and not already among the sender's friends, the call
succeeds and appends a `pending` request — with no hypothesis whatsoever
about a User record for the receiver (the witness sends to id 99, for which
`findUser` returns `none`). -/
theorem send_request_unchecked_receiver (s : Store) (senderId rcv newId : Nat) (u : User)
    (hu : s.findUser senderId = some u) (hne : rcv ≠ senderId) (hnf : rcv ∉ u.friends) :
    sendFriendRequest senderId (some rcv) newId s =
      (.ok ⟨newId, senderId, rcv, .pending⟩,
       { s with requests := s.requests ++ [⟨newId, senderId, rcv, .pending⟩] }) := by
  have hid : u.id = senderId := findUser_some_id hu
  simp [sendFriendRequest, hne, hu, hnf, hid]

/-- A store containing only user 1; id 99 references no user. -/
def senderStore : Store :=
  { users := [⟨1, [], []⟩], posts := [], comments := [], requests := [] }

/-- C10 witness: user 1 sends a request to the nonexistent id 99. -/
theorem send_request_unchecked_receiver_witness :
    (senderStore.findUser 1 = some ⟨1, [], []⟩ ∧ (99 : Nat) ≠ 1 ∧
     99 ∉ ([] : List Nat) ∧ senderStore.findUser 99 = none) ∧
    sendFriendRequest 1 (some 99) 800 senderStore =
      (.ok ⟨800, 1, 99, .pending⟩,
       { senderStore with requests := senderStore.requests ++ [⟨800, 1, 99, .pending⟩] }) :=
  ⟨⟨by decide, by decide, by decide, by decide⟩,
   send_request_unchecked_receiver senderStore 1 99 800 ⟨1, [], []⟩
     (by decide) (by decide) (by decide)⟩

end SocialMedia
